import Mathlib

/-!
# Telegram archive: ingestion handler and retention sweep

A shallow embedding of `src/app.js`: the `NewMessage` event handler
(lines 110-165), `getExtensionFromMime` (lines 57-75) and
`cleanupOldMessages` (lines 78-97), over an explicit store (the MongoDB
collection `messages`, a list of documents) and an explicit filesystem
(the entries that `existsSync`, `unlinkSync` and `writeFileSync` see).

Timestamps are epoch milliseconds (`Int`), buffers are lists of bytes.
-/

set_option autoImplicit false

namespace TelegramArchive

/-! ## JavaScript values -/

/-- Truthiness of a JS value that is a string, `null` or `undefined`:
only a non-empty string is truthy. -/
def truthy : Option String → Bool
  | some s => s != ""
  | none => false

/-- The expression `v || null` for a string-or-missing value. -/
def orNull (v : Option String) : Option String :=
  if truthy v then v else none

/-- The expression `v || null` for a number-or-missing value (`0` is falsy). -/
def orNullNum : Option Int → Option Int
  | some n => if n = 0 then none else some n
  | none => none

/-! ## Data model -/

/-- The two values of the field `type` of a stored document. -/
inductive Kind where
  | media
  | text
deriving DecidableEq, Repr

/-- The document `msgData` inserted at lines 150-161. -/
structure ArchivedMessage where
  message_id : Int
  date : Int
  text : Option String
  sender_id : Option Int
  sender_username : Option String
  chat_id : Option Int
  chat_name : Option String
  media_path : Option String
  type : Kind
  saved_at : Int
deriving DecidableEq, Repr

/-- One directory entry. `locked` says that `unlinkSync` and `writeFileSync`
throw on this path (the entry is a directory, or the process lacks the
permission: EISDIR, EACCES, EPERM). -/
structure FileEntry where
  path : String
  data : List Nat
  locked : Bool
deriving DecidableEq, Repr

/-- The filesystem: its entries, and whether the volume accepts new data
(`full`: `writeFileSync` throws ENOSPC). -/
structure FileSystem where
  entries : List FileEntry
  full : Bool
deriving DecidableEq, Repr

/-- The shared state of handler and sweep: the collection `messages` and the
filesystem. -/
structure World where
  store : List ArchivedMessage
  fs : FileSystem
deriving DecidableEq, Repr

/-! ## Filesystem calls -/

/-- Node `fs.existsSync`: false for the empty path, true when an entry has
the path. -/
def existsSync (fs : FileSystem) (p : String) : Bool :=
  p != "" && fs.entries.any (fun e => e.path == p)

/-- The entries found at a path. -/
def entriesAt (fs : FileSystem) (p : String) : List FileEntry :=
  fs.entries.filter (fun e => e.path == p)

/-- Node `fs.unlinkSync`: throws when nothing is at the path or when the
entry there is locked; otherwise the entry is gone. -/
def unlinkSync (fs : FileSystem) (p : String) : Except String FileSystem :=
  if fs.entries.any (fun e => e.path == p && e.locked) then
    Except.error "EPERM"
  else if fs.entries.any (fun e => e.path == p) then
    Except.ok { fs with entries := fs.entries.filter (fun e => !(e.path == p)) }
  else
    Except.error "ENOENT"

/-- Node `fs.writeFileSync(path, data)`: throws a TypeError when `data` is
`undefined`, and an I/O error when the volume is full or the path is locked;
otherwise the path holds exactly the new data. -/
def writeFileSync (fs : FileSystem) (p : String) (data : Option (List Nat)) :
    Except String FileSystem :=
  match data with
  | none => Except.error "ERR_INVALID_ARG_TYPE"
  | some bytes =>
    if fs.full then Except.error "ENOSPC"
    else if fs.entries.any (fun e => e.path == p && e.locked) then Except.error "EACCES"
    else Except.ok { fs with
      entries := fs.entries.filter (fun e => !(e.path == p)) ++
        [{ path := p, data := bytes, locked := false }] }

/-! ## Retention sweep (lines 78-97) -/

/-- Milliseconds in a day. -/
def msPerDay : Int := 86400000

/-- The call `subDays(date, amount)` of date-fns in a process whose local time
zone has a fixed offset from UTC (run with `TZ=UTC`, say): the calendar days
it moves back are then days of 24 hours. The sweep below does not use this
definition; it takes the library function as a parameter. -/
def subDaysFixedOffset (date : Int) (amount : Int) : Int :=
  date - amount * msPerDay

/-- The filter `{ saved_at: { $lt: cutoffDate } }`. -/
def olderThan (cutoffDate : Int) (msg : ArchivedMessage) : Bool :=
  decide (msg.saved_at < cutoffDate)

/-- One iteration of the loop at lines 84-93: when the document has a truthy
`media_path` and the file exists, unlink it, swallowing what `unlinkSync`
throws. -/
def removeMediaFile (fs : FileSystem) (msg : ArchivedMessage) : FileSystem :=
  match msg.media_path with
  | some p =>
    if truthy (some p) && existsSync fs p then
      match unlinkSync fs p with
      | Except.ok fs2 => fs2
      | Except.error _ => fs
    else fs
  | none => fs

/-- The function `cleanupOldMessages` run at time `now` with the constant
`RETENTION_DAYS`: find the old documents, unlink their files, then
`deleteMany` with the same filter. The parameter `subDays` is the date-fns
function called at line 79, which moves a date back by local calendar days:
whatever it returns for `now` and `RETENTION_DAYS` is the cutoff, in every
time zone, with or without a daylight-saving shift inside the window. -/
def cleanupOldMessages (subDays : Int → Int → Int) (RETENTION_DAYS : Int) (now : Int)
    (w : World) : World :=
  let cutoffDate := subDays now RETENTION_DAYS
  let oldMessages := w.store.filter (olderThan cutoffDate)
  { store := w.store.filter (fun m => !(olderThan cutoffDate m)),
    fs := oldMessages.foldl removeMediaFile w.fs }

/-! ## Extension resolution (lines 57-75 and 123-136) -/

/-- The own keys of the object literal `map` of `getExtensionFromMime`. -/
def mimeTable : List (String × String) :=
  [("image/jpeg", ".jpg"), ("image/png", ".png"), ("image/webp", ".webp"),
   ("image/gif", ".gif"), ("video/mp4", ".mp4"), ("video/x-matroska", ".mkv"),
   ("audio/mpeg", ".mp3"), ("audio/ogg", ".ogg"), ("audio/wav", ".wav"),
   ("application/pdf", ".pdf"), ("application/zip", ".zip"),
   ("application/x-rar-compressed", ".rar"), ("text/plain", ".txt")]

/-- The function-valued members that every object literal inherits from
`Object.prototype`, each with the name of the function found there. -/
def inheritedFunctions : List (String × String) :=
  [("constructor", "Object"), ("hasOwnProperty", "hasOwnProperty"),
   ("isPrototypeOf", "isPrototypeOf"), ("propertyIsEnumerable", "propertyIsEnumerable"),
   ("toLocaleString", "toLocaleString"), ("toString", "toString"), ("valueOf", "valueOf"),
   ("__defineGetter__", "__defineGetter__"), ("__defineSetter__", "__defineSetter__"),
   ("__lookupGetter__", "__lookupGetter__"), ("__lookupSetter__", "__lookupSetter__")]

/-- The values the variable `ext` of the handler can hold: a string, or what
the property read `map[mimeType]` finds on the prototype chain of `map`. -/
inductive ExtValue where
  | str (s : String)
  | inheritedFunction (name : String)
  | objectPrototype
deriving DecidableEq, Repr

/-- Truthiness of a value of `ext`: functions and objects are truthy. -/
def ExtValue.truthy : ExtValue → Bool
  | ExtValue.str s => s != ""
  | ExtValue.inheritedFunction _ => true
  | ExtValue.objectPrototype => true

/-- The text that the template literal of line 138 prints for `ext || ""`. -/
def ExtValue.print : ExtValue → String
  | ExtValue.str s => s
  | ExtValue.inheritedFunction name => "function " ++ name ++ "() \x7b [native code] \x7d"
  | ExtValue.objectPrototype => "[object Object]"

/-- The property read `map[mimeType]`: an own key of the literal, else a
member inherited from `Object.prototype`, else `undefined`. -/
def mapLookup (mimeType : String) : Option ExtValue :=
  match mimeTable.lookup mimeType with
  | some e => some (ExtValue.str e)
  | none =>
    match inheritedFunctions.lookup mimeType with
    | some name => some (ExtValue.inheritedFunction name)
    | none => if mimeType == "__proto__" then some ExtValue.objectPrototype else none

/-- The function `getExtensionFromMime` (lines 57-75). -/
def getExtensionFromMime (mimeType : Option String) : ExtValue :=
  match mimeType with
  | none => ExtValue.str ""
  | some m =>
    if !(truthy (some m)) then ExtValue.str ""
    else
      match mapLookup m with
      | some v => if v.truthy then v else ExtValue.str ""
      | none => ExtValue.str ""

/-- Node `path.extname` on POSIX, on the characters of the path in reverse:
the last component without its trailing slashes, from its last dot on; empty
when the component has no dot, starts with its only dot, or is `..`. -/
def extnameRev (rpath : List Char) : List Char :=
  let rbase := (rpath.dropWhile (fun c => c == '/')).takeWhile (fun c => c != '/')
  let rext := rbase.takeWhile (fun c => c != '.')
  if rext.length = rbase.length then []
  else if rbase.drop (rext.length + 1) = [] then []
  else if rbase = ['.', '.'] then []
  else '.' :: rext.reverse

/-- Node `path.extname`. -/
def extname (path : String) : String :=
  String.mk (extnameRev path.data.reverse)

/-- A document attribute; only `fileName` is read. -/
structure Attribute where
  fileName : Option String
deriving DecidableEq, Repr

/-- The object `message.media.document`; only `mimeType` and `attributes` are
read. -/
structure Document where
  mimeType : Option String
  attributes : Option (List Attribute)
deriving DecidableEq, Repr

/-- The object `message.media`: its optional `document`, and whether its
property `photo` is truthy. -/
structure Media where
  document : Option Document
  photo : Bool
deriving DecidableEq, Repr

/-- The expression `message.media.document?.mimeType`. -/
def Media.mimeType (media : Media) : Option String :=
  media.document.bind (fun d => d.mimeType)

/-- The expression `message.media.document?.attributes`, an empty array
counted as missing (its `length` is falsy). -/
def Media.attributes (media : Media) : List Attribute :=
  match media.document with
  | some d => d.attributes.getD []
  | none => []

/-- The first `fileName` found: `attributes.find(a => a.fileName)?.fileName`. -/
def Media.firstFileName (media : Media) : Option String :=
  match media.attributes.find? (fun a => truthy a.fileName) with
  | some attr => attr.fileName
  | none => none

/-- Lines 123-130: `ext` after the MIME branch and the photo branch. -/
def extFromMimeOrPhoto (media : Media) : ExtValue :=
  if truthy media.mimeType then getExtensionFromMime media.mimeType
  else if media.photo then ExtValue.str ".jpg"
  else ExtValue.str ""

/-- Lines 123-136: the value of `ext` when the file name is built. -/
def resolveExt (media : Media) : ExtValue :=
  let ext := extFromMimeOrPhoto media
  if !ext.truthy && decide (0 < media.attributes.length) then
    match media.firstFileName with
    | some f => if truthy (some f) then ExtValue.str (extname f) else ext
    | none => ext
  else ext

/-! ## The `NewMessage` handler (lines 110-165) -/

/-- The object `event.message`: `message` is the text, `media` the attachment. -/
structure Message where
  id : Int
  date : Int
  message : Option String
  media : Option Media
deriving DecidableEq, Repr

/-- The event handed to the handler. -/
structure Event where
  message : Option Message
deriving DecidableEq, Repr

/-- What `getSender()` resolves to; only `id` and `username` are read. -/
structure Sender where
  id : Option Int
  username : Option String
deriving DecidableEq, Repr

/-- What `getChat()` resolves to; only `id` and `title` are read. -/
structure Chat where
  id : Option Int
  title : Option String
deriving DecidableEq, Repr

/-- What the outside world answers during one run of the handler: the two
lookups and the download either throw or return (a lookup may return nothing,
the download may return `undefined`), and the clock is read twice. -/
structure Env where
  getSender : Except String (Option Sender)
  getChat : Except String (Option Chat)
  downloadMedia : Except String (Option (List Nat))
  dateNow : Int
  savedAt : Int

/-- The call `path.join(mediaDir, filename)` with `mediaDir = "./media"`:
the join is normalised, so `./media` becomes `media`; `filename` holds no
separator. -/
def joinMediaDir (filename : String) : String :=
  "media/" ++ filename

/-- Line 138: the template literal that names the file. The two numbers are
integers in the range that JavaScript prints in plain decimal. -/
def targetFilename (dateNow : Int) (message : Message) (media : Media) : String :=
  toString dateNow ++ "_" ++ toString message.id ++ (resolveExt media).print

/-- The body of the `try` block (lines 122-141): download, name, write. It
returns the path and the new filesystem, or what was thrown. -/
def saveMedia (env : Env) (message : Message) (media : Media) (fs : FileSystem) :
    Except String (String × FileSystem) :=
  match env.downloadMedia with
  | Except.error e => Except.error e
  | Except.ok file =>
    let filePath := joinMediaDir (targetFilename env.dateNow message media)
    match writeFileSync fs filePath file with
    | Except.error e => Except.error e
    | Except.ok fs2 => Except.ok (filePath, fs2)

/-- Lines 117-147: `mediaPath` and the filesystem after the media block; what
the `try` block throws is caught and leaves `mediaPath` null. -/
def mediaStep (env : Env) (message : Message) (fs : FileSystem) :
    Option String × FileSystem :=
  match message.media with
  | none => (none, fs)
  | some media =>
    match saveMedia env message media fs with
    | Except.ok (filePath, fs2) => (some filePath, fs2)
    | Except.error _ => (none, fs)

/-- Lines 150-161: the document `msgData`. -/
def msgData (env : Env) (message : Message) (sender : Option Sender) (chat : Option Chat)
    (mediaPath : Option String) : ArchivedMessage :=
  { message_id := message.id,
    date := message.date,
    text := orNull message.message,
    sender_id := orNullNum (sender.bind (fun s => s.id)),
    sender_username := orNull (sender.bind (fun s => s.username)),
    chat_id := orNullNum (chat.bind (fun c => c.id)),
    chat_name := orNull (chat.bind (fun c => c.title)),
    media_path := mediaPath,
    type := if message.media.isSome then Kind.media else Kind.text,
    saved_at := env.savedAt }

/-- The guard of line 112: the message has text or media. -/
def ingestible (message : Message) : Bool :=
  truthy message.message || message.media.isSome

/-- The handler. `Except.ok w2` is a run that completes in world `w2`;
`Except.error e` is a run that rejects with `e`, which only a throwing lookup
causes, before any write or insert, so the world is then the one it started
in. `insertOne` appends the document to the collection. -/
def handler (env : Env) (event : Event) (w : World) : Except String World :=
  match event.message with
  | none => Except.ok w
  | some message =>
    if !(ingestible message) then Except.ok w
    else
      match env.getSender with
      | Except.error e => Except.error e
      | Except.ok sender =>
        match env.getChat with
        | Except.error e => Except.error e
        | Except.ok chat =>
          let saved := mediaStep env message w.fs
          Except.ok { store := w.store ++ [msgData env message sender chat saved.1],
                      fs := saved.2 }

/-! ## Printed numbers -/

/-- Characters that a printed integer is made of. -/
def numChar (c : Char) : Bool := c.isDigit || c == '-'

/-! ## Concrete worlds for the retention sweep -/

/-- The time of the example sweeps: ten days after the epoch. With
`RETENTION_DAYS = 7` and a fixed UTC offset the cutoff is day three,
`259200000`. -/
def day10 : Int := 864000000

/-- A media document saved at the epoch, ten days before `day10`. -/
def expiredRecord : ArchivedMessage :=
  { message_id := 5, date := 0, text := none, sender_id := some 11,
    sender_username := some "ann", chat_id := some 1, chat_name := some "A",
    media_path := some "media/0_5.jpg", type := Kind.media, saved_at := 0 }

/-- A world whose only document is expired and whose file cannot be unlinked. -/
def lockedWorld : World :=
  { store := [expiredRecord],
    fs := { entries := [{ path := "media/0_5.jpg", data := [1], locked := true }],
            full := false } }

/-- The same world with an ordinary file. -/
def plainWorld : World :=
  { store := [expiredRecord],
    fs := { entries := [{ path := "media/0_5.jpg", data := [1], locked := false }],
            full := false } }

/-- A document saved one millisecond before the cutoff of `day10`. -/
def sharedOld : ArchivedMessage :=
  { message_id := 5, date := 259199, text := none, sender_id := some 11,
    sender_username := some "ann", chat_id := some 1, chat_name := some "A",
    media_path := some "media/259199999_5.jpg", type := Kind.media, saved_at := 259199999 }

/-- A document of another chat saved exactly at the cutoff of `day10`, whose
`media_path` is the one of `sharedOld`. -/
def sharedFresh : ArchivedMessage :=
  { message_id := 5, date := 259199, text := none, sender_id := some 12,
    sender_username := some "bob", chat_id := some 2, chat_name := some "B",
    media_path := some "media/259199999_5.jpg", type := Kind.media, saved_at := 259200000 }

/-- A world in which an expired and a fresh document name the same file. -/
def sharedWorld : World :=
  { store := [sharedOld, sharedFresh],
    fs := { entries := [{ path := "media/259199999_5.jpg", data := [2], locked := false }],
            full := false } }

/-- A document saved one day before `day10`, with its own file. -/
def recentRecord : ArchivedMessage :=
  { message_id := 6, date := 777600, text := some "hi", sender_id := some 11,
    sender_username := some "ann", chat_id := some 1, chat_name := some "A",
    media_path := some "media/777600000_6.png", type := Kind.media, saved_at := 777600000 }

/-- A world with an expired and a recent document, each with its own file. -/
def mixedWorld : World :=
  { store := [expiredRecord, recentRecord],
    fs := { entries := [{ path := "media/0_5.jpg", data := [1], locked := false },
                        { path := "media/777600000_6.png", data := [7], locked := false }],
            full := false } }


/-! ## Concrete events for the handler -/

/-- A world with no document and no file. -/
def emptyWorld : World :=
  { store := [], fs := { entries := [], full := false } }

/-- A photo with a caption. -/
def photoMessage : Message :=
  { id := 5, date := 1700000000, message := some "look",
    media := some { document := none, photo := true } }

/-- A message with text only. -/
def textMessage : Message :=
  { id := 6, date := 1700000000, message := some "hello", media := none }

/-- A message with empty text and no media. -/
def blankMessage : Message :=
  { id := 7, date := 1700000000, message := some "", media := none }

/-- A run in which both lookups resolve and the download returns three bytes. -/
def okEnv : Env :=
  { getSender := Except.ok (some { id := some 11, username := some "ann" }),
    getChat := Except.ok (some { id := some 1, title := some "A" }),
    downloadMedia := Except.ok (some [1, 2, 3]),
    dateNow := 1700000000000, savedAt := 1700000000001 }

/-- A run in which the download throws. -/
def failingDownloadEnv : Env :=
  { okEnv with downloadMedia := Except.error "TIMEOUT" }

/-- A run in which both lookups return nothing. -/
def unresolvedEnv : Env :=
  { okEnv with getSender := Except.ok none, getChat := Except.ok none }

/-- A run for a message of chat `B`, at the same millisecond as `okEnv`. -/
def otherChatEnv : Env :=
  { okEnv with
    getSender := Except.ok (some { id := some 12, username := some "bob" }),
    getChat := Except.ok (some { id := some 2, title := some "B" }),
    downloadMedia := Except.ok (some [9]) }

/-- The world after `okEnv` has archived `photoMessage` into `emptyWorld`. -/
def savedPhotoWorld : World :=
  { store := [{ message_id := 5, date := 1700000000, text := some "look",
                sender_id := some 11, sender_username := some "ann",
                chat_id := some 1, chat_name := some "A",
                media_path := some "media/1700000000000_5.jpg", type := Kind.media,
                saved_at := 1700000000001 }],
    fs := { entries := [{ path := "media/1700000000000_5.jpg", data := [1, 2, 3],
                          locked := false }],
            full := false } }

/-- A document whose declared MIME type is the text `constructor` and whose
file name is `notes.txt`. -/
def constructorMedia : Media :=
  { document := some { mimeType := some "constructor",
                       attributes := some [{ fileName := some "notes.txt" }] },
    photo := false }

/-- A message carrying `constructorMedia`. -/
def constructorMessage : Message :=
  { id := 8, date := 1700000000, message := none, media := some constructorMedia }

/-- The extension as the specification words it: the table's extension when
the declared MIME type is in the table, otherwise `.jpg` for a photo,
otherwise the extension of the first `fileName`, otherwise empty. -/
def specExtension (media : Media) : String :=
  match media.mimeType.bind (fun m => mimeTable.lookup m) with
  | some e => e
  | none =>
    if media.photo then ".jpg"
    else
      match media.firstFileName with
      | some f => extname f
      | none => ""

/-- The world after `okEnv` and then `otherChatEnv` have archived
`photoMessage`, one run per chat, into `emptyWorld`. -/
def collidedWorld : World :=
  { store := [{ message_id := 5, date := 1700000000, text := some "look",
                sender_id := some 11, sender_username := some "ann",
                chat_id := some 1, chat_name := some "A",
                media_path := some "media/1700000000000_5.jpg", type := Kind.media,
                saved_at := 1700000000001 },
              { message_id := 5, date := 1700000000, text := some "look",
                sender_id := some 12, sender_username := some "bob",
                chat_id := some 2, chat_name := some "B",
                media_path := some "media/1700000000000_5.jpg", type := Kind.media,
                saved_at := 1700000000001 }],
    fs := { entries := [{ path := "media/1700000000000_5.jpg", data := [9],
                          locked := false }],
            full := false } }

/-! ## Lemmas on the retention sweep -/

theorem removeMediaFile_entries (fs : FileSystem) (msg : ArchivedMessage) :
    removeMediaFile fs msg = fs ∨
      ∃ p, msg.media_path = some p ∧
        (∀ e ∈ fs.entries, e.path = p → e.locked = false) ∧
        removeMediaFile fs msg =
          { fs with entries := fs.entries.filter (fun e => !(e.path == p)) } := by
  unfold removeMediaFile
  cases hp : msg.media_path with
  | none => exact Or.inl rfl
  | some p =>
    simp only
    split
    · unfold unlinkSync
      by_cases hl : fs.entries.any (fun e => e.path == p && e.locked) = true
      · simp [hl]
      · by_cases hx : fs.entries.any (fun e => e.path == p) = true
        · right
          refine ⟨p, rfl, ?_, ?_⟩
          · intro e he hpe
            by_contra hlk
            apply hl
            simp only [List.any_eq_true]
            exact ⟨e, he, by simp [hpe, hlk]⟩
          · simp [hl, hx]
        · simp [hl, hx]
    · exact Or.inl rfl

theorem existsSync_filter_of_false (fs : FileSystem) (q : String) (f : FileEntry → Bool)
    (h : existsSync fs q = false) :
    existsSync { fs with entries := fs.entries.filter f } q = false := by
  unfold existsSync at *
  simp only [Bool.and_eq_false_imp, bne_iff_ne, ne_eq] at *
  intro hq
  have := h hq
  simp only [List.any_eq_false, List.mem_filter] at *
  intro e he
  exact this e he.1

theorem removeMediaFile_absent (fs : FileSystem) (msg : ArchivedMessage) (q : String)
    (h : existsSync fs q = false) : existsSync (removeMediaFile fs msg) q = false := by
  rcases removeMediaFile_entries fs msg with h1 | ⟨p, _, _, h1⟩
  · rw [h1]; exact h
  · rw [h1]; exact existsSync_filter_of_false fs q _ h

theorem foldl_removeMediaFile_absent (l : List ArchivedMessage) (fs : FileSystem) (q : String)
    (h : existsSync fs q = false) :
    existsSync (l.foldl removeMediaFile fs) q = false := by
  induction l generalizing fs with
  | nil => exact h
  | cons m l ih => exact ih _ (removeMediaFile_absent fs m q h)

theorem removeMediaFile_unlocked (fs : FileSystem) (msg : ArchivedMessage) (p : String)
    (h : ∀ e ∈ fs.entries, e.path = p → e.locked = false) :
    ∀ e ∈ (removeMediaFile fs msg).entries, e.path = p → e.locked = false := by
  rcases removeMediaFile_entries fs msg with h1 | ⟨p2, _, _, h1⟩
  · rw [h1]; exact h
  · rw [h1]
    intro e he
    exact h e (List.mem_filter.mp he).1

theorem removeMediaFile_own_path (fs : FileSystem) (msg : ArchivedMessage) (p : String)
    (hp : msg.media_path = some p)
    (h : ∀ e ∈ fs.entries, e.path = p → e.locked = false) :
    existsSync (removeMediaFile fs msg) p = false := by
  by_cases hex : existsSync fs p = true
  · have hne : p ≠ "" := by
      unfold existsSync at hex
      simp only [Bool.and_eq_true, bne_iff_ne, ne_eq] at hex
      exact hex.1
    have hany : fs.entries.any (fun e => e.path == p) = true := by
      unfold existsSync at hex
      simp only [Bool.and_eq_true] at hex
      exact hex.2
    have hl : fs.entries.any (fun e => e.path == p && e.locked) = false := by
      simp only [List.any_eq_false, Bool.and_eq_true, beq_iff_eq, not_and, Bool.not_eq_true]
      intro e he hpe
      exact h e he hpe
    have ht : truthy (some p) = true := by simp [truthy, hne]
    unfold removeMediaFile
    simp only [hp, ht, hex, Bool.and_self, if_true, unlinkSync, hl, hany]
    unfold existsSync
    simp
  · have hex2 : existsSync fs p = false := by simpa using hex
    exact removeMediaFile_absent fs msg p hex2

theorem foldl_removeMediaFile_removes (l : List ArchivedMessage) (fs : FileSystem)
    (r : ArchivedMessage) (p : String) (hr : r ∈ l) (hp : r.media_path = some p)
    (h : ∀ e ∈ fs.entries, e.path = p → e.locked = false) :
    existsSync (l.foldl removeMediaFile fs) p = false := by
  induction l generalizing fs with
  | nil => cases hr
  | cons m l ih =>
    rcases List.mem_cons.mp hr with hm | hm
    · subst hm
      exact foldl_removeMediaFile_absent l _ p (removeMediaFile_own_path fs r p hp h)
    · exact ih _ hm (removeMediaFile_unlocked fs m p h)

theorem removeMediaFile_other_path (fs : FileSystem) (msg : ArchivedMessage) (p : String)
    (hp : msg.media_path ≠ some p) :
    entriesAt (removeMediaFile fs msg) p = entriesAt fs p := by
  rcases removeMediaFile_entries fs msg with h1 | ⟨p2, hp2, _, h1⟩
  · rw [h1]
  · rw [h1]
    have hne : p2 ≠ p := by
      intro h
      apply hp
      rw [hp2, h]
    unfold entriesAt
    simp only [List.filter_filter]
    apply List.filter_congr
    intro e _
    by_cases he : e.path = p
    · have : ¬ p = p2 := fun h => hne h.symm
      simp [he, this]
    · simp [he]

theorem foldl_removeMediaFile_other_path (l : List ArchivedMessage) (fs : FileSystem)
    (p : String) (h : ∀ m ∈ l, m.media_path ≠ some p) :
    entriesAt (l.foldl removeMediaFile fs) p = entriesAt fs p := by
  induction l generalizing fs with
  | nil => rfl
  | cons m l ih =>
    simp only [List.foldl_cons]
    rw [ih _ (fun m2 hm2 => h m2 (List.mem_cons_of_mem _ hm2))]
    exact removeMediaFile_other_path fs m p (h m (List.mem_cons_self _ _))

theorem existsSync_eq_of_entriesAt (fs1 fs2 : FileSystem) (p : String)
    (h : entriesAt fs1 p = entriesAt fs2 p) : existsSync fs1 p = existsSync fs2 p := by
  have key : ∀ fs : FileSystem,
      fs.entries.any (fun e => e.path == p) = !(entriesAt fs p).isEmpty := by
    intro fs
    unfold entriesAt
    induction fs.entries with
    | nil => rfl
    | cons e l ih =>
      by_cases he : e.path = p
      · simp [List.filter_cons, he]
      · simp [List.filter_cons, he, ih]
  unfold existsSync
  rw [key fs1, key fs2, h]


/-! ## Lemmas on printed numbers and file names -/

theorem toDigitsCore_acc (fuel n : Nat) (acc : List Char) :
    Nat.toDigitsCore 10 fuel n acc = Nat.toDigitsCore 10 fuel n [] ++ acc := by
  induction fuel generalizing n acc with
  | zero => simp [Nat.toDigitsCore]
  | succ f ih =>
    simp only [Nat.toDigitsCore]
    split
    · simp
    · rw [ih (n / 10) (Nat.digitChar (n % 10) :: acc), ih (n / 10) [Nat.digitChar (n % 10)]]
      simp

theorem toDigitsCore_fuel (n : Nat) : ∀ fuel, n < fuel →
    Nat.toDigitsCore 10 fuel n [] = Nat.toDigitsCore 10 (n + 1) n [] := by
  induction n using Nat.strong_induction_on with
  | _ n ih =>
    intro fuel hf
    obtain ⟨f, rfl⟩ : ∃ f, fuel = f + 1 := ⟨fuel - 1, by omega⟩
    simp only [Nat.toDigitsCore]
    split
    · rfl
    · rename_i hne
      have hlt : n / 10 < n := by omega
      rw [toDigitsCore_acc f, toDigitsCore_acc n, ih (n / 10) hlt f (by omega),
        ih (n / 10) hlt n hlt]

theorem toDigits_step (n : Nat) :
    Nat.toDigits 10 n =
      if n < 10 then [Nat.digitChar n]
      else Nat.toDigits 10 (n / 10) ++ [Nat.digitChar (n % 10)] := by
  have hunfold : Nat.toDigits 10 n =
      if n / 10 = 0 then [Nat.digitChar (n % 10)]
      else Nat.toDigitsCore 10 n (n / 10) [Nat.digitChar (n % 10)] := rfl
  rw [hunfold]
  by_cases h : n < 10
  · have h0 : n / 10 = 0 := by omega
    have h1 : n % 10 = n := by omega
    simp [h, h0, h1]
  · have h0 : ¬ n / 10 = 0 := by omega
    simp only [h, h0, if_false]
    rw [toDigitsCore_acc, toDigitsCore_fuel (n / 10) n (by omega)]
    rfl

theorem digitChar_isDigit (d : Nat) (h : d < 10) : (Nat.digitChar d).isDigit = true := by
  interval_cases d <;> decide

theorem digitChar_inj (a b : Nat) (ha : a < 10) (hb : b < 10)
    (h : Nat.digitChar a = Nat.digitChar b) : a = b := by
  interval_cases a <;> interval_cases b <;> first | rfl | (exfalso; revert h; decide)

theorem toDigits_ne_nil (n : Nat) : Nat.toDigits 10 n ≠ [] := by
  rw [toDigits_step]
  split <;> simp

theorem toDigits_isDigit (n : Nat) : ∀ c ∈ Nat.toDigits 10 n, c.isDigit = true := by
  induction n using Nat.strong_induction_on with
  | _ n ih =>
    rw [toDigits_step]
    split
    · intro c hc
      simp only [List.mem_singleton] at hc
      rw [hc]
      exact digitChar_isDigit n (by omega)
    · intro c hc
      rcases List.mem_append.mp hc with h | h
      · exact ih (n / 10) (by omega) c h
      · simp only [List.mem_singleton] at h
        rw [h]
        exact digitChar_isDigit _ (Nat.mod_lt _ (by decide))

theorem toDigits_inj (n : Nat) : ∀ m, Nat.toDigits 10 n = Nat.toDigits 10 m → n = m := by
  induction n using Nat.strong_induction_on with
  | _ n ih =>
    intro m h
    rw [toDigits_step n, toDigits_step m] at h
    by_cases hn : n < 10 <;> by_cases hm : m < 10
    · simp only [hn, hm, if_true, List.cons.injEq, and_true] at h
      exact digitChar_inj n m hn hm h
    · simp only [hn, hm, if_true, if_false] at h
      have := congrArg List.length h
      have hne := toDigits_ne_nil (m / 10)
      have : (Nat.toDigits 10 (m / 10)).length = 0 := by simpa using this.symm
      exact absurd (List.length_eq_zero.mp this) hne
    · simp only [hn, hm, if_true, if_false] at h
      have := congrArg List.length h
      have hne := toDigits_ne_nil (n / 10)
      have : (Nat.toDigits 10 (n / 10)).length = 0 := by simpa using this
      exact absurd (List.length_eq_zero.mp this) hne
    · simp only [hn, hm, if_false] at h
      have h2 := List.append_inj' h rfl
      have hq : n / 10 = m / 10 := ih (n / 10) (by omega) (m / 10) h2.1
      have hr : n % 10 = m % 10 :=
        digitChar_inj _ _ (Nat.mod_lt _ (by decide)) (Nat.mod_lt _ (by decide))
          (by simpa using h2.2)
      omega

theorem toString_int_data (a : Int) :
    (toString a).data =
      if 0 ≤ a then Nat.toDigits 10 a.toNat else '-' :: Nat.toDigits 10 (-a).toNat := by
  cases a with
  | ofNat m =>
    show (toString m).data = _
    simp [toString, Nat.repr, List.asString]
  | negSucc m =>
    show ("-" ++ toString (Nat.succ m)).data = _
    have : ¬ (0 ≤ Int.negSucc m) := by simp
    simp only [this, if_false, String.data_append]
    simp [toString, Nat.repr, List.asString, Int.neg_negSucc]

theorem toString_int_numChar (a : Int) : ∀ c ∈ (toString a).data, numChar c = true := by
  intro c hc
  rw [toString_int_data] at hc
  split at hc
  · simp [numChar, toDigits_isDigit _ c hc]
  · rcases List.mem_cons.mp hc with h | h
    · rw [h]; decide
    · simp [numChar, toDigits_isDigit _ c h]

theorem toString_int_inj (a b : Int) (h : (toString a).data = (toString b).data) : a = b := by
  rw [toString_int_data, toString_int_data] at h
  have hhead : ∀ n l, Nat.toDigits 10 n ≠ '-' :: l := by
    intro n l hn
    have := toDigits_isDigit n '-' (by rw [hn]; exact List.mem_cons_self _ _)
    revert this
    decide
  by_cases ha : 0 ≤ a <;> by_cases hb : 0 ≤ b
  · simp only [ha, hb, if_true] at h
    have := toDigits_inj _ _ h
    omega
  · simp only [ha, hb, if_true, if_false] at h
    exact absurd h (hhead _ _)
  · simp only [ha, hb, if_true, if_false] at h
    exact absurd h.symm (hhead _ _)
  · simp only [ha, hb, if_false, List.cons.injEq, true_and] at h
    have := toDigits_inj _ _ h
    omega

/-- Two texts that each start with a run of `P`-characters followed by a
remainder that does not start with a `P`-character are equal only when the
runs and the remainders are. -/
theorem append_run_inj (P : Char → Bool) (l1 : List Char) :
    ∀ (l2 r1 r2 : List Char),
      (∀ c ∈ l1, P c = true) → (∀ c ∈ l2, P c = true) →
      (∀ c, r1.head? = some c → P c = false) → (∀ c, r2.head? = some c → P c = false) →
      l1 ++ r1 = l2 ++ r2 → l1 = l2 ∧ r1 = r2 := by
  induction l1 with
  | nil =>
    intro l2 r1 r2 _ h2 hr1 _ h
    cases l2 with
    | nil => exact ⟨rfl, by simpa using h⟩
    | cons d l2 =>
      simp only [List.nil_append, List.cons_append] at h
      have h3 := hr1 d (by rw [h]; rfl)
      have h4 := h2 d (List.mem_cons_self _ _)
      rw [h3] at h4
      cases h4
  | cons c l1 ih =>
    intro l2 r1 r2 h1 h2 hr1 hr2 h
    cases l2 with
    | nil =>
      simp only [List.nil_append, List.cons_append] at h
      have h3 := hr2 c (by rw [← h]; rfl)
      have h4 := h1 c (List.mem_cons_self _ _)
      rw [h3] at h4
      cases h4
    | cons d l2 =>
      simp only [List.cons_append, List.cons.injEq] at h
      have := ih l2 r1 r2 (fun x hx => h1 x (List.mem_cons_of_mem _ hx))
        (fun x hx => h2 x (List.mem_cons_of_mem _ hx)) hr1 hr2 h.2
      exact ⟨by rw [h.1, this.1], this.2⟩

theorem lookup_mem (l : List (String × String)) (k v : String)
    (h : l.lookup k = some v) : v ∈ l.map Prod.snd := by
  induction l with
  | nil => simp at h
  | cons kv l ih =>
    obtain ⟨k2, v2⟩ := kv
    simp only [List.lookup] at h
    split at h
    · simp only [Option.some.injEq] at h
      simp [h]
    · simp [ih h]

theorem extnameRev_head (r : List Char) (c : Char)
    (h : (extnameRev r).head? = some c) : c = '.' := by
  unfold extnameRev at h
  simp only at h
  split at h
  · simp at h
  · split at h
    · simp at h
    · split at h
      · simp at h
      · simpa using h.symm

theorem print_head (media : Media) (c : Char)
    (h : (resolveExt media).print.data.head? = some c) : numChar c = false := by
  have hdot : ∀ s : String, (∀ d, s.data.head? = some d → d = '.') →
      (ExtValue.str s).print.data.head? = some c → numChar c = false := by
    intro s hs hc
    have := hs c hc
    rw [this]; decide
  have hempty : (ExtValue.str "").print.data.head? = some c → numChar c = false := by
    intro hc
    simp [ExtValue.print] at hc
  have hjpg : (ExtValue.str ".jpg").print.data.head? = some c → numChar c = false :=
    hdot ".jpg" (by intro d hd; simpa using hd.symm)
  have hfn : ∀ name, (ExtValue.inheritedFunction name).print.data.head? = some c →
      numChar c = false := by
    intro name hc
    simp only [ExtValue.print, String.data_append] at hc
    have : c = 'f' := by simpa using hc.symm
    rw [this]; decide
  have hobj : ExtValue.objectPrototype.print.data.head? = some c → numChar c = false := by
    intro hc
    have : c = '[' := by simpa [ExtValue.print] using hc.symm
    rw [this]; decide
  have hmime : ∀ m, (getExtensionFromMime m).print.data.head? = some c → numChar c = false := by
    intro m hc
    unfold getExtensionFromMime at hc
    cases m with
    | none => exact hempty hc
    | some m =>
      simp only at hc
      split at hc
      · exact hempty hc
      · unfold mapLookup at hc
        cases ht : mimeTable.lookup m with
        | some e =>
          simp only [ht] at hc
          have hmem := lookup_mem _ _ _ ht
          have he : ∀ d, e.data.head? = some d → d = '.' := by
            have hall : ∀ x ∈ mimeTable.map Prod.snd, ∀ d, x.data.head? = some d → d = '.' := by
              decide
            exact hall e hmem
          split at hc
          · exact hdot e he hc
          · exact hempty hc
        | none =>
          simp only [ht] at hc
          cases hf : inheritedFunctions.lookup m with
          | some name =>
            simp only [hf, ExtValue.truthy, if_true] at hc
            exact hfn name hc
          | none =>
            simp only [hf] at hc
            by_cases hp : (m == "__proto__") = true
            · simp only [hp, if_true, ExtValue.truthy] at hc
              exact hobj hc
            · simp only [hp] at hc
              exact hempty hc
  have hbase : (extFromMimeOrPhoto media).print.data.head? = some c → numChar c = false := by
    intro hc
    unfold extFromMimeOrPhoto at hc
    split at hc
    · exact hmime _ hc
    · split at hc
      · exact hjpg hc
      · exact hempty hc
  unfold resolveExt at h
  simp only at h
  split at h
  · split at h
    · split at h
      · apply hdot _ _ h
        intro d hd
        exact extnameRev_head _ d (by simpa [extname] using hd)
      · exact hbase h
    · exact hbase h
  · exact hbase h

theorem targetFilename_inj (t1 t2 : Int) (m1 m2 : Message) (media1 media2 : Media)
    (h : targetFilename t1 m1 media1 = targetFilename t2 m2 media2) :
    t1 = t2 ∧ m1.id = m2.id ∧ (resolveExt media1).print = (resolveExt media2).print := by
  have hd := congrArg String.data h
  simp only [targetFilename, String.data_append] at hd
  simp only [List.append_assoc] at hd
  have hunder : ∀ (r : List Char) (c : Char), (['_'] ++ r).head? = some c → numChar c = false := by
    intro r c hc
    have : c = '_' := by simpa using hc.symm
    rw [this]; decide
  have h1 := append_run_inj numChar _ _ _ _ (toString_int_numChar t1) (toString_int_numChar t2)
    (hunder _) (hunder _) hd
  have h2 : (toString m1.id).data ++ (resolveExt media1).print.data =
      (toString m2.id).data ++ (resolveExt media2).print.data := by
    simpa using h1.2
  have h3 := append_run_inj numChar _ _ _ _ (toString_int_numChar m1.id)
    (toString_int_numChar m2.id) (print_head media1) (print_head media2) h2
  exact ⟨toString_int_inj _ _ h1.1, toString_int_inj _ _ h3.1, String.ext h3.2⟩

theorem joinMediaDir_inj (a b : String) (h : joinMediaDir a = joinMediaDir b) : a = b := by
  have hd := congrArg String.data h
  simp only [joinMediaDir, String.data_append] at hd
  exact String.ext (List.append_cancel_left hd)

theorem joinMediaDir_ne_empty (a : String) : joinMediaDir a ≠ "" := by
  intro h
  have hd := congrArg String.data h
  simp only [joinMediaDir, String.data_append] at hd
  simp at hd

/-! ## Lemmas on the handler -/

theorem handler_of_lookups (env : Env) (event : Event) (w : World) (message : Message)
    (sender : Option Sender) (chat : Option Chat)
    (hm : event.message = some message) (hi : ingestible message = true)
    (hs : env.getSender = Except.ok sender) (hc : env.getChat = Except.ok chat) :
    handler env event w =
      Except.ok { store := w.store ++ [msgData env message sender chat
                    (mediaStep env message w.fs).1],
                  fs := (mediaStep env message w.fs).2 } := by
  simp [handler, hm, hi, hs, hc]

theorem handler_ok_inv (env : Env) (event : Event) (w w2 : World) (message : Message)
    (hm : event.message = some message) (hi : ingestible message = true)
    (h : handler env event w = Except.ok w2) :
    ∃ sender chat, env.getSender = Except.ok sender ∧ env.getChat = Except.ok chat ∧
      w2 = { store := w.store ++ [msgData env message sender chat
               (mediaStep env message w.fs).1],
             fs := (mediaStep env message w.fs).2 } := by
  cases hs : env.getSender with
  | error e => simp [handler, hm, hi, hs] at h
  | ok sender =>
    cases hc : env.getChat with
    | error e => simp [handler, hm, hi, hs, hc] at h
    | ok chat =>
      rw [handler_of_lookups env event w message sender chat hm hi hs hc] at h
      exact ⟨sender, chat, rfl, rfl, (Except.ok.inj h).symm⟩

theorem writeFileSync_exists (fs fs2 : FileSystem) (p : String) (file : Option (List Nat))
    (hp : p ≠ "") (h : writeFileSync fs p file = Except.ok fs2) :
    existsSync fs2 p = true := by
  unfold writeFileSync at h
  cases file with
  | none => simp at h
  | some bytes =>
    simp only at h
    split at h
    · simp at h
    · split at h
      · simp at h
      · have h2 := Except.ok.inj h
        rw [← h2]
        simp [existsSync, hp]

theorem writeFileSync_other_path (fs fs2 : FileSystem) (p q : String)
    (file : Option (List Nat)) (hpq : q ≠ p)
    (h : writeFileSync fs p file = Except.ok fs2) :
    entriesAt fs2 q = entriesAt fs q := by
  unfold writeFileSync at h
  cases file with
  | none => simp at h
  | some bytes =>
    simp only at h
    split at h
    · simp at h
    · split at h
      · simp at h
      · have h2 := Except.ok.inj h
        rw [← h2]
        unfold entriesAt
        have hpq2 : ¬ p = q := fun e => hpq e.symm
        simp only [List.filter_append, List.filter_filter, List.filter_cons, List.filter_nil,
          beq_iff_eq, hpq2, if_false, List.append_nil]
        apply List.filter_congr
        intro e _
        by_cases he : e.path = q
        · have : ¬ q = p := hpq
          simp [he, this]
        · simp [he]

theorem saveMedia_ok_inv (env : Env) (message : Message) (media : Media) (fs fs2 : FileSystem)
    (p : String) (h : saveMedia env message media fs = Except.ok (p, fs2)) :
    p = joinMediaDir (targetFilename env.dateNow message media) ∧
      ∃ file, env.downloadMedia = Except.ok file ∧ writeFileSync fs p file = Except.ok fs2 := by
  unfold saveMedia at h
  cases hd : env.downloadMedia with
  | error e => simp [hd] at h
  | ok file =>
    simp only [hd] at h
    cases hw : writeFileSync fs (joinMediaDir (targetFilename env.dateNow message media)) file with
    | error e => simp [hw] at h
    | ok fs3 =>
      simp only [hw, Except.ok.injEq, Prod.mk.injEq] at h
      refine ⟨h.1.symm, file, rfl, ?_⟩
      rw [← h.1, ← h.2]
      exact hw

theorem mediaStep_cases (env : Env) (message : Message) (media : Media) (fs : FileSystem)
    (hmedia : message.media = some media) :
    (∀ e, env.downloadMedia = Except.error e → mediaStep env message fs = (none, fs)) ∧
    (∀ file e, env.downloadMedia = Except.ok file →
      writeFileSync fs (joinMediaDir (targetFilename env.dateNow message media)) file =
        Except.error e →
      mediaStep env message fs = (none, fs)) ∧
    (∀ file fs2, env.downloadMedia = Except.ok file →
      writeFileSync fs (joinMediaDir (targetFilename env.dateNow message media)) file =
        Except.ok fs2 →
      mediaStep env message fs =
        (some (joinMediaDir (targetFilename env.dateNow message media)), fs2)) := by
  refine ⟨?_, ?_, ?_⟩
  · intro e he
    simp [mediaStep, hmedia, saveMedia, he]
  · intro file e hd hw
    simp [mediaStep, hmedia, saveMedia, hd, hw]
  · intro file fs2 hd hw
    simp [mediaStep, hmedia, saveMedia, hd, hw]

/-! ## Claims on the retention sweep -/

/-- C1, as the claim states it, fails: in `lockedWorld`, swept in a process
with a fixed UTC offset, the document is expired and the sweep deletes it,
yet the file at its `media_path` is still there afterwards, because
`unlinkSync` threw and the `catch` swallowed it. -/
theorem cleanup_leaves_locked_file :
    expiredRecord ∈ lockedWorld.store ∧
    expiredRecord.saved_at < subDaysFixedOffset day10 7 ∧
    expiredRecord.media_path = some "media/0_5.jpg" ∧
    expiredRecord ∉ (cleanupOldMessages subDaysFixedOffset 7 day10 lockedWorld).store ∧
    existsSync (cleanupOldMessages subDaysFixedOffset 7 day10 lockedWorld).fs
      "media/0_5.jpg" = true := by
  decide

/-- C1, amended: whatever the library function `subDays` computes, after one
sweep every document saved strictly before the cutoff
`subDays now RETENTION_DAYS` is absent from the store, and the file at its
`media_path` is absent from the filesystem whenever no entry at that path is
locked, that is whenever `unlinkSync` does not throw for it. -/
theorem cleanup_removes_expired (subDays : Int → Int → Int) (RETENTION_DAYS now : Int)
    (w : World) (r : ArchivedMessage)
    (hr : r ∈ w.store) (hold : r.saved_at < subDays now RETENTION_DAYS) :
    r ∉ (cleanupOldMessages subDays RETENTION_DAYS now w).store ∧
    ∀ p, r.media_path = some p →
      (∀ e ∈ w.fs.entries, e.path = p → e.locked = false) →
      existsSync (cleanupOldMessages subDays RETENTION_DAYS now w).fs p = false := by
  constructor
  · simp [cleanupOldMessages, olderThan, hold]
  · intro p hp hunlocked
    have hmem : r ∈ w.store.filter (olderThan (subDays now RETENTION_DAYS)) := by
      simp [List.mem_filter, hr, olderThan, hold]
    exact foldl_removeMediaFile_removes _ w.fs r p hmem hp hunlocked

/-- C1, amended, at the scenario of the specification: saved ten days ago,
seven days kept, an ordinary file, a process with a fixed UTC offset. -/
theorem cleanup_removes_expired_witness :
    expiredRecord ∉ (cleanupOldMessages subDaysFixedOffset 7 day10 plainWorld).store ∧
    existsSync (cleanupOldMessages subDaysFixedOffset 7 day10 plainWorld).fs
      "media/0_5.jpg" = false :=
  ⟨(cleanup_removes_expired subDaysFixedOffset 7 day10 plainWorld expiredRecord
      (by decide) (by decide)).1,
   (cleanup_removes_expired subDaysFixedOffset 7 day10 plainWorld expiredRecord
      (by decide) (by decide)).2 "media/0_5.jpg" rfl (by decide)⟩

/-- C2, as the claim states it, fails: in `sharedWorld`, swept in a process
with a fixed UTC offset, the document `sharedFresh` is saved exactly at the
cutoff and survives the sweep, but the file at its `media_path`, present
before, is gone afterwards: the expired document `sharedOld` names the same
file. -/
theorem cleanup_deletes_shared_file :
    sharedFresh ∈ sharedWorld.store ∧
    subDaysFixedOffset day10 7 ≤ sharedFresh.saved_at ∧
    sharedFresh.media_path = some "media/259199999_5.jpg" ∧
    existsSync sharedWorld.fs "media/259199999_5.jpg" = true ∧
    sharedFresh ∈ (cleanupOldMessages subDaysFixedOffset 7 day10 sharedWorld).store ∧
    existsSync (cleanupOldMessages subDaysFixedOffset 7 day10 sharedWorld).fs
      "media/259199999_5.jpg" = false := by
  decide

/-- C2, amended: whatever the library function `subDays` computes, one sweep
keeps every document saved at or after the cutoff `subDays now RETENTION_DAYS`,
unchanged and as many times as it was stored, and leaves what is at its
`media_path` untouched provided no document of the store saved strictly
before that cutoff has the same `media_path`. -/
theorem cleanup_keeps_fresh (subDays : Int → Int → Int) (RETENTION_DAYS now : Int)
    (w : World) (r : ArchivedMessage)
    (hr : r ∈ w.store) (hfresh : subDays now RETENTION_DAYS ≤ r.saved_at) :
    r ∈ (cleanupOldMessages subDays RETENTION_DAYS now w).store ∧
    (cleanupOldMessages subDays RETENTION_DAYS now w).store.count r = w.store.count r ∧
    ∀ p, r.media_path = some p →
      (∀ m ∈ w.store, m.saved_at < subDays now RETENTION_DAYS → m.media_path ≠ some p) →
      entriesAt (cleanupOldMessages subDays RETENTION_DAYS now w).fs p = entriesAt w.fs p ∧
      existsSync (cleanupOldMessages subDays RETENTION_DAYS now w).fs p =
        existsSync w.fs p := by
  have hnot : olderThan (subDays now RETENTION_DAYS) r = false := by
    simp [olderThan, hfresh]
  refine ⟨?_, ?_, ?_⟩
  · simp [cleanupOldMessages, List.mem_filter, hr, hnot]
  · simp only [cleanupOldMessages]
    rw [List.count_filter]
    simp [hnot]
  · intro p _ hothers
    have hkey : entriesAt (cleanupOldMessages subDays RETENTION_DAYS now w).fs p =
        entriesAt w.fs p := by
      simp only [cleanupOldMessages]
      apply foldl_removeMediaFile_other_path
      intro m hm
      have hm2 := List.mem_filter.mp hm
      apply hothers m hm2.1
      simpa [olderThan] using hm2.2
    exact ⟨hkey, existsSync_eq_of_entriesAt _ _ p hkey⟩

/-- C2, amended, at the scenario of the specification: saved one day ago,
seven days kept, a process with a fixed UTC offset; document and file are
both still there. -/
theorem cleanup_keeps_fresh_witness :
    recentRecord ∈ (cleanupOldMessages subDaysFixedOffset 7 day10 mixedWorld).store ∧
    existsSync (cleanupOldMessages subDaysFixedOffset 7 day10 mixedWorld).fs
        "media/777600000_6.png" =
      existsSync mixedWorld.fs "media/777600000_6.png" :=
  ⟨(cleanup_keeps_fresh subDaysFixedOffset 7 day10 mixedWorld recentRecord
      (by decide) (by decide)).1,
   ((cleanup_keeps_fresh subDaysFixedOffset 7 day10 mixedWorld recentRecord
      (by decide) (by decide)).2.2 "media/777600000_6.png" rfl (by decide)).2⟩

/-- C8: whatever the library function `subDays` computes, a second sweep with
the same `now` and the same retention window changes nothing: store and
filesystem after the second run are those after the first. -/
theorem cleanup_idempotent (subDays : Int → Int → Int) (RETENTION_DAYS now : Int)
    (w : World) :
    cleanupOldMessages subDays RETENTION_DAYS now
        (cleanupOldMessages subDays RETENTION_DAYS now w) =
      cleanupOldMessages subDays RETENTION_DAYS now w := by
  have hnone : (w.store.filter (fun m => !(olderThan (subDays now RETENTION_DAYS) m))).filter
      (olderThan (subDays now RETENTION_DAYS)) = [] := by
    simp [List.filter_filter]
  have hsame : (w.store.filter (fun m => !(olderThan (subDays now RETENTION_DAYS) m))).filter
      (fun m => !(olderThan (subDays now RETENTION_DAYS) m)) =
      w.store.filter (fun m => !(olderThan (subDays now RETENTION_DAYS) m)) := by
    simp [List.filter_filter]
  simp only [cleanupOldMessages, hnone, hsame, List.foldl_nil]

/-! ## Claims on the handler -/

/-- C9: an event with no message, or whose message has neither truthy text
nor media (empty-string text included), leaves the world as it is: no
document is inserted and no file is written. -/
theorem handler_skips_empty (env : Env) (event : Event) (w : World)
    (h : ∀ m, event.message = some m → truthy m.message = false ∧ m.media = none) :
    handler env event w = Except.ok w := by
  unfold handler
  cases hm : event.message with
  | none => rfl
  | some m =>
    have := h m hm
    simp [ingestible, this.1, this.2]

/-- C9 at an event whose text is the empty string and that has no media. -/
theorem handler_skips_empty_witness :
    handler okEnv { message := some blankMessage } emptyWorld = Except.ok emptyWorld :=
  handler_skips_empty okEnv { message := some blankMessage } emptyWorld
    (by intro m hm; cases hm; exact ⟨rfl, rfl⟩)

/-- C10: for an event with non-empty text and no attachment, every completed
run of the handler leaves the filesystem as it was and appends exactly one
document, of type text, with a null `media_path` and the text of the event;
and the run completes whenever both lookups return. -/
theorem handler_text_only (env : Env) (event : Event) (w : World) (message : Message)
    (hm : event.message = some message) (htext : truthy message.message = true)
    (hmedia : message.media = none) :
    (∀ w2, handler env event w = Except.ok w2 →
      w2.fs = w.fs ∧
      ∃ rec, w2.store = w.store ++ [rec] ∧ rec.type = Kind.text ∧ rec.media_path = none ∧
        rec.text = message.message) ∧
    (∀ sender chat, env.getSender = Except.ok sender → env.getChat = Except.ok chat →
      ∃ w2, handler env event w = Except.ok w2) := by
  have hi : ingestible message = true := by simp [ingestible, htext]
  have hstep : mediaStep env message w.fs = (none, w.fs) := by simp [mediaStep, hmedia]
  constructor
  · intro w2 h
    obtain ⟨sender, chat, _, _, hw2⟩ := handler_ok_inv env event w w2 message hm hi h
    rw [hw2, hstep]
    refine ⟨rfl, _, rfl, ?_, rfl, ?_⟩
    · simp [msgData, hmedia]
    · simp [msgData, orNull, htext]
  · intro sender chat hs hc
    exact ⟨_, handler_of_lookups env event w message sender chat hm hi hs hc⟩

/-- C10 at a text message: the document inserted is of type text with no
`media_path`, and no file appears. -/
theorem handler_text_only_witness :
    (∀ w2, handler okEnv { message := some textMessage } emptyWorld = Except.ok w2 →
      w2.fs = emptyWorld.fs ∧
      ∃ rec, w2.store = emptyWorld.store ++ [rec] ∧ rec.type = Kind.text ∧
        rec.media_path = none ∧ rec.text = textMessage.message) ∧
    (∀ sender chat, okEnv.getSender = Except.ok sender → okEnv.getChat = Except.ok chat →
      ∃ w2, handler okEnv { message := some textMessage } emptyWorld = Except.ok w2) :=
  handler_text_only okEnv { message := some textMessage } emptyWorld textMessage rfl
    (by decide) rfl

/-- C3: for an event with an attachment whose download is attempted (both
lookups returned), if the download throws or the file write throws, the
handler completes, leaves the filesystem as it was and appends exactly one
document, whose text is the text of the event when that is truthy and null
otherwise, and whose `media_path` is null. -/
theorem handler_survives_media_failure (env : Env) (event : Event) (w : World)
    (message : Message) (media : Media) (sender : Option Sender) (chat : Option Chat)
    (hm : event.message = some message) (hmedia : message.media = some media)
    (hs : env.getSender = Except.ok sender) (hc : env.getChat = Except.ok chat)
    (hfail : (∃ e, env.downloadMedia = Except.error e) ∨
      ∃ file e, env.downloadMedia = Except.ok file ∧
        writeFileSync w.fs (joinMediaDir (targetFilename env.dateNow message media)) file =
          Except.error e) :
    ∃ rec, handler env event w = Except.ok { store := w.store ++ [rec], fs := w.fs } ∧
      (truthy message.message = true → rec.text = message.message) ∧
      (truthy message.message = false → rec.text = none) ∧
      rec.media_path = none := by
  have hi : ingestible message = true := by simp [ingestible, hmedia]
  have hsave : ∃ e, saveMedia env message media w.fs = Except.error e := by
    rcases hfail with ⟨e, he⟩ | ⟨file, e, hd, hw⟩
    · exact ⟨e, by simp [saveMedia, he]⟩
    · exact ⟨e, by simp [saveMedia, hd, hw]⟩
  obtain ⟨e, he⟩ := hsave
  have hstep : mediaStep env message w.fs = (none, w.fs) := by simp [mediaStep, hmedia, he]
  refine ⟨msgData env message sender chat none, ?_, ?_, ?_, rfl⟩
  · rw [handler_of_lookups env event w message sender chat hm hi hs hc, hstep]
  · intro ht
    simp [msgData, orNull, ht]
  · intro ht
    simp [msgData, orNull, ht]

/-- C3 at the scenario of the specification: the download of a captioned
photo throws; one document is inserted, with the caption and no path. -/
theorem handler_survives_media_failure_witness :
    ∃ rec, handler failingDownloadEnv { message := some photoMessage } emptyWorld =
        Except.ok { store := emptyWorld.store ++ [rec], fs := emptyWorld.fs } ∧
      (truthy photoMessage.message = true → rec.text = photoMessage.message) ∧
      (truthy photoMessage.message = false → rec.text = none) ∧
      rec.media_path = none :=
  handler_survives_media_failure failingDownloadEnv { message := some photoMessage } emptyWorld
    photoMessage { document := none, photo := true }
    (some { id := some 11, username := some "ann" }) (some { id := some 1, title := some "A" })
    rfl rfl rfl rfl (Or.inl ⟨"TIMEOUT", rfl⟩)

/-- C4, as the claim states it, fails: when the download of a photo throws,
the handler inserts a document of type media whose `media_path` is null. -/
theorem handler_media_without_path :
    handler failingDownloadEnv { message := some photoMessage } emptyWorld =
      Except.ok
        { store := [{ message_id := 5, date := 1700000000, text := some "look",
                      sender_id := some 11, sender_username := some "ann",
                      chat_id := some 1, chat_name := some "A",
                      media_path := none, type := Kind.media,
                      saved_at := 1700000000001 }],
          fs := emptyWorld.fs } := by
  rfl

/-- C4, amended: for an ingestible event, every completed run of the handler
appends exactly one document, whose type is media exactly when the event
carries an attachment. For an event with an attachment the document is of
type media whether or not the file was saved: its `media_path` is non-null
exactly when the download and the file write both succeeded, it is then the
path just written and the file is on the filesystem at the moment of
insertion; when the download or the write throws, the document is inserted
with type media, a null `media_path` and the filesystem as it was. The run
completes whenever both lookups return. -/
theorem handler_media_path_iff_saved (env : Env) (event : Event) (w : World)
    (message : Message)
    (hm : event.message = some message) (hi : ingestible message = true) :
    (∀ w2, handler env event w = Except.ok w2 →
      ∃ rec, w2.store = w.store ++ [rec] ∧
        (rec.type = Kind.media ↔ message.media ≠ none) ∧
        ∀ media, message.media = some media →
          rec.type = Kind.media ∧
          (rec.media_path ≠ none ↔
            ∃ file fs2, env.downloadMedia = Except.ok file ∧
              writeFileSync w.fs (joinMediaDir (targetFilename env.dateNow message media))
                file = Except.ok fs2) ∧
          (∀ file fs2, env.downloadMedia = Except.ok file →
            writeFileSync w.fs (joinMediaDir (targetFilename env.dateNow message media))
              file = Except.ok fs2 →
            rec.media_path = some (joinMediaDir (targetFilename env.dateNow message media)) ∧
            w2.fs = fs2 ∧
            existsSync w2.fs (joinMediaDir (targetFilename env.dateNow message media)) = true) ∧
          (((∃ e, env.downloadMedia = Except.error e) ∨
            ∃ file e, env.downloadMedia = Except.ok file ∧
              writeFileSync w.fs (joinMediaDir (targetFilename env.dateNow message media))
                file = Except.error e) →
            rec.media_path = none ∧ w2.fs = w.fs)) ∧
    (∀ sender chat, env.getSender = Except.ok sender → env.getChat = Except.ok chat →
      ∃ w2, handler env event w = Except.ok w2) := by
  constructor
  · intro w2 h
    obtain ⟨sender, chat, _, _, hw2⟩ := handler_ok_inv env event w w2 message hm hi h
    refine ⟨msgData env message sender chat (mediaStep env message w.fs).1, ?_, ?_, ?_⟩
    · rw [hw2]
    · cases hmedia : message.media with
      | none => simp [msgData, hmedia]
      | some media => simp [msgData, hmedia]
    · intro media hmedia
      obtain ⟨hdl, hwr, hok⟩ := mediaStep_cases env message media w.fs hmedia
      have hsuccess : ∀ file fs2, env.downloadMedia = Except.ok file →
          writeFileSync w.fs (joinMediaDir (targetFilename env.dateNow message media))
            file = Except.ok fs2 →
          (msgData env message sender chat (mediaStep env message w.fs).1).media_path =
            some (joinMediaDir (targetFilename env.dateNow message media)) ∧
          w2.fs = fs2 ∧
          existsSync w2.fs (joinMediaDir (targetFilename env.dateNow message media)) = true := by
        intro file fs2 hd hw
        rw [hw2, hok file fs2 hd hw]
        exact ⟨rfl, rfl, writeFileSync_exists w.fs fs2 _ file (joinMediaDir_ne_empty _) hw⟩
      have hfailure : ((∃ e, env.downloadMedia = Except.error e) ∨
          ∃ file e, env.downloadMedia = Except.ok file ∧
            writeFileSync w.fs (joinMediaDir (targetFilename env.dateNow message media))
              file = Except.error e) →
          (msgData env message sender chat (mediaStep env message w.fs).1).media_path = none ∧
          w2.fs = w.fs := by
        intro hfail
        rcases hfail with ⟨e, he⟩ | ⟨file, e, hd, hw⟩
        · rw [hw2, hdl e he]
          exact ⟨rfl, rfl⟩
        · rw [hw2, hwr file e hd hw]
          exact ⟨rfl, rfl⟩
      refine ⟨by simp [msgData, hmedia], ?_, hsuccess, hfailure⟩
      constructor
      · intro hpath
        cases hd : env.downloadMedia with
        | error e => exact absurd (hfailure (Or.inl ⟨e, hd⟩)).1 hpath
        | ok file =>
          cases hw : writeFileSync w.fs
              (joinMediaDir (targetFilename env.dateNow message media)) file with
          | error e => exact absurd (hfailure (Or.inr ⟨file, e, hd, hw⟩)).1 hpath
          | ok fs2 => exact ⟨file, fs2, rfl, hw⟩
      · rintro ⟨file, fs2, hd, hw⟩
        rw [(hsuccess file fs2 hd hw).1]
        simp
  · intro sender chat hs hc
    exact ⟨_, handler_of_lookups env event w message sender chat hm hi hs hc⟩

/-- C4, amended, at a photo whose download and write succeed: the run ends
in `savedPhotoWorld`. -/
theorem handler_media_path_iff_saved_witness :
    ∃ rec, savedPhotoWorld.store = emptyWorld.store ++ [rec] ∧
      (rec.type = Kind.media ↔ photoMessage.media ≠ none) ∧
      ∀ media, photoMessage.media = some media →
        rec.type = Kind.media ∧
        (rec.media_path ≠ none ↔
          ∃ file fs2, okEnv.downloadMedia = Except.ok file ∧
            writeFileSync emptyWorld.fs
              (joinMediaDir (targetFilename okEnv.dateNow photoMessage media))
              file = Except.ok fs2) ∧
        (∀ file fs2, okEnv.downloadMedia = Except.ok file →
          writeFileSync emptyWorld.fs
            (joinMediaDir (targetFilename okEnv.dateNow photoMessage media))
            file = Except.ok fs2 →
          rec.media_path =
            some (joinMediaDir (targetFilename okEnv.dateNow photoMessage media)) ∧
          savedPhotoWorld.fs = fs2 ∧
          existsSync savedPhotoWorld.fs
            (joinMediaDir (targetFilename okEnv.dateNow photoMessage media)) = true) ∧
        (((∃ e, okEnv.downloadMedia = Except.error e) ∨
          ∃ file e, okEnv.downloadMedia = Except.ok file ∧
            writeFileSync emptyWorld.fs
              (joinMediaDir (targetFilename okEnv.dateNow photoMessage media))
              file = Except.error e) →
          rec.media_path = none ∧ savedPhotoWorld.fs = emptyWorld.fs) :=
  (handler_media_path_iff_saved okEnv { message := some photoMessage } emptyWorld
    photoMessage rfl (by decide)).1 savedPhotoWorld rfl

/-- C5: for every ingestible event, when a lookup does not resolve, which
`getSender()` and `getChat()` report by returning nothing or an entity
without the field, the handler does not abort: it completes and appends
exactly one document, in which every sender or chat field whose value is
missing is null. -/
theorem handler_unresolved_lookup (env : Env) (event : Event) (w : World) (message : Message)
    (sender : Option Sender) (chat : Option Chat)
    (hm : event.message = some message) (hi : ingestible message = true)
    (hs : env.getSender = Except.ok sender) (hc : env.getChat = Except.ok chat) :
    ∃ rec w2, handler env event w = Except.ok w2 ∧ w2.store = w.store ++ [rec] ∧
      (sender.bind (fun s => s.id) = none → rec.sender_id = none) ∧
      (sender.bind (fun s => s.username) = none → rec.sender_username = none) ∧
      (chat.bind (fun c => c.id) = none → rec.chat_id = none) ∧
      (chat.bind (fun c => c.title) = none → rec.chat_name = none) := by
  refine ⟨_, _, handler_of_lookups env event w message sender chat hm hi hs hc, rfl, ?_, ?_, ?_, ?_⟩
  · intro h; simp [msgData, h, orNullNum]
  · intro h; simp [msgData, h, orNull, truthy]
  · intro h; simp [msgData, h, orNullNum]
  · intro h; simp [msgData, h, orNull, truthy]

/-- C5 at a text message whose sender and chat do not resolve. -/
theorem handler_unresolved_lookup_witness :
    ∃ rec w2, handler unresolvedEnv { message := some textMessage } emptyWorld = Except.ok w2 ∧
      w2.store = emptyWorld.store ++ [rec] ∧
      rec.sender_id = none ∧ rec.sender_username = none ∧
      rec.chat_id = none ∧ rec.chat_name = none := by
  obtain ⟨rec, w2, h1, h2, h3, h4, h5, h6⟩ :=
    handler_unresolved_lookup unresolvedEnv { message := some textMessage } emptyWorld
      textMessage none none rfl (by decide) rfl rfl
  exact ⟨rec, w2, h1, h2, h3 rfl, h4 rfl, h5 rfl, h6 rfl⟩

/-! ## Claims on the file name -/

/-- Where the declared MIME type names no member inherited from
`Object.prototype`, and the attachment does not both declare a MIME type and
carry a photo, the extension the handler prints is the one the
specification's priority order gives. -/
theorem resolveExt_eq_specExtension (media : Media)
    (hkey : ∀ m, media.mimeType = some m →
      inheritedFunctions.lookup m = none ∧ (m == "__proto__") = false)
    (hexcl : ¬ (truthy media.mimeType = true ∧ media.photo = true)) :
    (resolveExt media).print = specExtension media := by
  have hfile : ∀ f, media.firstFileName = some f → truthy (some f) = true := by
    intro f hf
    unfold Media.firstFileName at hf
    split at hf
    · rename_i attr hfind
      have := List.find?_some hfind
      rw [hf] at this
      exact this
    · cases hf
  have hnoattr : ¬ (0 < media.attributes.length) → media.firstFileName = none := by
    intro h
    have : media.attributes = [] := List.length_eq_zero.mp (by omega)
    simp [Media.firstFileName, this]
  have htail : ∀ ext, ext = ExtValue.str "" →
      (if (!ext.truthy && decide (0 < media.attributes.length)) = true then
        match media.firstFileName with
        | some f => if truthy (some f) = true then ExtValue.str (extname f) else ext
        | none => ext
      else ext).print =
      match media.firstFileName with
      | some f => extname f
      | none => "" := by
    intro ext hext
    subst hext
    by_cases hlen : 0 < media.attributes.length
    · cases hf : media.firstFileName with
      | none => simp [ExtValue.truthy, ExtValue.print, hlen]
      | some f => simp [ExtValue.truthy, ExtValue.print, hlen, hfile f hf]
    · simp [hnoattr hlen, ExtValue.truthy, ExtValue.print, hlen]
  unfold resolveExt specExtension
  simp only
  cases hmt : media.mimeType with
  | none =>
    have h0 : extFromMimeOrPhoto media =
        if media.photo then ExtValue.str ".jpg" else ExtValue.str "" := by
      simp [extFromMimeOrPhoto, hmt, truthy]
    rw [h0]
    by_cases hph : media.photo = true
    · simp [hph, ExtValue.truthy, ExtValue.print]
    · simp only [hph, if_false, Option.bind]
      exact htail _ rfl
  | some m =>
    obtain ⟨hk1, hk2⟩ := hkey m hmt
    by_cases htr : truthy (some m) = true
    · have hph : media.photo = false := by
        cases hp : media.photo with
        | false => rfl
        | true => exact absurd ⟨by rw [hmt]; exact htr, hp⟩ hexcl
      cases hl : mimeTable.lookup m with
      | some e =>
        have hne : (e != "") = true := by
          have hall : ∀ x ∈ mimeTable.map Prod.snd, (x != "") = true := by decide
          exact hall e (lookup_mem _ _ _ hl)
        have h0 : extFromMimeOrPhoto media = ExtValue.str e := by
          simp [extFromMimeOrPhoto, hmt, htr, getExtensionFromMime, mapLookup, hl,
            ExtValue.truthy, hne]
        rw [h0]
        simp [ExtValue.truthy, hne, ExtValue.print, hl]
      | none =>
        have h0 : extFromMimeOrPhoto media = ExtValue.str "" := by
          simp [extFromMimeOrPhoto, hmt, htr, getExtensionFromMime, mapLookup, hl, hk1, hk2]
        rw [h0]
        simp only [Option.bind, hl, hph]
        exact htail _ rfl
    · have hm0 : m = "" := by
        simpa [truthy] using htr
      subst hm0
      have h0 : extFromMimeOrPhoto media =
          if media.photo then ExtValue.str ".jpg" else ExtValue.str "" := by
        simp [extFromMimeOrPhoto, hmt, truthy]
      have hl : mimeTable.lookup "" = none := by decide
      rw [h0]
      by_cases hph : media.photo = true
      · simp [hph, ExtValue.truthy, ExtValue.print, hl]
      · simp only [hph, if_false, Option.bind, hl]
        exact htail _ rfl

/-- C6 at the failing input: a document whose declared MIME type is
`constructor`, not a key of the table, with the file name `notes.txt`. The
priority order of the claim gives `.txt`; the handler appends the printed
form of the inherited function `Object` instead. -/
theorem extension_of_inherited_key :
    mimeTable.lookup "constructor" = none ∧
    constructorMedia.photo = false ∧
    constructorMedia.firstFileName = some "notes.txt" ∧
    specExtension constructorMedia = ".txt" ∧
    (resolveExt constructorMedia).print = "function Object() \x7b [native code] \x7d" ∧
    (handler okEnv { message := some constructorMessage } emptyWorld).toOption.map
        (fun w2 => w2.store.map (fun r => r.media_path)) =
      some [some "media/1700000000000_8function Object() \x7b [native code] \x7d"] := by
  decide

/-- C7, as the claim states it, fails: two messages with the same id in two
different chats, saved in the same millisecond, get the same file name; the
second save overwrites the file of the first, and both documents point at
the one file that is left. -/
theorem filename_collides_across_chats :
    okEnv.getChat = Except.ok (some { id := some 1, title := some "A" }) ∧
    otherChatEnv.getChat = Except.ok (some { id := some 2, title := some "B" }) ∧
    targetFilename okEnv.dateNow photoMessage { document := none, photo := true } =
      targetFilename otherChatEnv.dateNow photoMessage { document := none, photo := true } ∧
    Except.bind (handler okEnv { message := some photoMessage } emptyWorld)
        (handler otherChatEnv { message := some photoMessage }) =
      Except.ok collidedWorld := by
  refine ⟨rfl, rfl, by decide, rfl⟩

/-- C7, amended: unless two attachment saves have the same message id and
happen in the same epoch millisecond, in whatever chats, their target file
names and paths differ, so the write of one leaves what the other wrote
untouched. -/
theorem targetFilename_distinct (t1 t2 : Int) (m1 m2 : Message) (media1 media2 : Media)
    (h : ¬ (m1.id = m2.id ∧ t1 = t2)) :
    targetFilename t1 m1 media1 ≠ targetFilename t2 m2 media2 ∧
    joinMediaDir (targetFilename t1 m1 media1) ≠ joinMediaDir (targetFilename t2 m2 media2) ∧
    ∀ fs file fs2,
      writeFileSync fs (joinMediaDir (targetFilename t2 m2 media2)) file = Except.ok fs2 →
      entriesAt fs2 (joinMediaDir (targetFilename t1 m1 media1)) =
        entriesAt fs (joinMediaDir (targetFilename t1 m1 media1)) := by
  have hname : targetFilename t1 m1 media1 ≠ targetFilename t2 m2 media2 := by
    intro heq
    have := targetFilename_inj t1 t2 m1 m2 media1 media2 heq
    exact h ⟨this.2.1, this.1⟩
  have hpath : joinMediaDir (targetFilename t1 m1 media1) ≠
      joinMediaDir (targetFilename t2 m2 media2) :=
    fun heq => hname (joinMediaDir_inj _ _ heq)
  exact ⟨hname, hpath, fun fs file fs2 hw => writeFileSync_other_path fs fs2 _ _ file hpath hw⟩

/-- C7, amended, at the same photo saved one millisecond apart. -/
theorem targetFilename_distinct_witness :
    targetFilename 1700000000000 photoMessage { document := none, photo := true } ≠
      targetFilename 1700000000001 photoMessage { document := none, photo := true } :=
  (targetFilename_distinct 1700000000000 1700000000001 photoMessage photoMessage
    { document := none, photo := true } { document := none, photo := true }
    (by decide)).1

end TelegramArchive
